import Mathlib

/-!
Verification of the preppr backend's routing / dependency-injection /
response-caching core, as a shallow embedding in Lean 4.

The embedded code comes from:
* `src/api/src/app/utilities/injector.ts` (the `Injector` singleton container),
* `src/api/src/app/application.ts` (`Application.routes`, `Application.getMiddlewareFn`,
  the `MIDDLEWARE` enum),
* the controller/cache utility module (`sanitizePath`, `Respond`, `Cache`,
  `DataController.loadDataAndGenerateChecksum`, `getAll`, `create`, `update`,
  `delete`, `destroyCaches`),
* `src/api/src/app/constants/status-codes.ts` (`STATUS_CODE`).

JavaScript machine details are modelled as follows: object identity is an
allocation counter (`InjState.next`) for the injector and explicit heap cells
(`Store`) where aliasing matters; `undefined` values are `Option.none`;
thrown exceptions are `Except.error` carrying the message string; the event
loop executes each embedded call atomically at one logical instant `now`.
-/

set_option autoImplicit false

namespace Preppr

/-! Section: Status codes (`constants/status-codes.ts`) -/

/-- Model of `IStatusCode` from `status-codes.ts`: a numeric code plus a text tag. -/
structure IStatusCode where
  code : Nat
  text : String
deriving DecidableEq, Repr

namespace STATUS_CODE

/-- Value `STATUS_CODE.OK`. -/
def OK : IStatusCode := ⟨200, "OK"⟩

/-- Value `STATUS_CODE.NOT_MODIFIED` (the source maps it to numeric code 204). -/
def NOT_MODIFIED : IStatusCode := ⟨204, "NOT_MODIFIED"⟩

/-- Value `STATUS_CODE.BAD_REQUEST`. -/
def BAD_REQUEST : IStatusCode := ⟨400, "BAD_REQUEST"⟩

/-- Value `STATUS_CODE.UNAUTHORIZED`. -/
def UNAUTHORIZED : IStatusCode := ⟨401, "UNAUTHORIZED"⟩

/-- Value `STATUS_CODE.NOT_FOUND`. -/
def NOT_FOUND : IStatusCode := ⟨404, "NOT_FOUND"⟩

/-- Value `STATUS_CODE.INTERNAL`. -/
def INTERNAL : IStatusCode := ⟨500, "INTERNAL"⟩

end STATUS_CODE

/-! Section: Middleware gate (`application.ts`) -/

/-- The `MIDDLEWARE` const enum of `application.ts`. -/
inductive MIDDLEWARE where
  | AUTH
  | AUTH_SUPERADMIN
  | NO_AUTH
deriving DecidableEq, Repr

/-- Whether the gate fell through to `next()` (handler runs) or returned early. -/
inductive GateOutcome where
  | next
  | unauthorized
deriving DecidableEq, Repr

/-- Observable result of `Application.getMiddlewareFn`: how many times
`authorizationService.authorized` was invoked, what envelope (if any) was
written by the gate, and whether `next()` was reached. -/
structure GateResult where
  authChecks : Nat
  responded : Option IStatusCode
  outcome : GateOutcome
deriving DecidableEq, Repr

/-- The `for` loop body of `Application.getMiddlewareFn`.  `all` is the complete
`middlewares` array (the `includes(MIDDLEWARE.NO_AUTH)` test always scans the
whole array), `l` the remaining iterations, `n` the number of authorization
checks performed so far.  `authOk` is the value the external
`authorizationService.authorized` call settles to for this request. -/
def getMiddlewareFnLoop (authOk : Bool) (all : List MIDDLEWARE) :
    List MIDDLEWARE → Nat → GateResult
  | [], n => { authChecks := n, responded := none, outcome := .next }
  | .AUTH :: rest, n =>
    if all.contains .NO_AUTH then
      getMiddlewareFnLoop authOk all rest n
    else if authOk then
      getMiddlewareFnLoop authOk all rest (n + 1)
    else
      { authChecks := n + 1, responded := some STATUS_CODE.UNAUTHORIZED,
        outcome := .unauthorized }
  | _ :: rest, n => getMiddlewareFnLoop authOk all rest n

/-- Function `Application.getMiddlewareFn(middlewares, request, response, next)`. -/
def getMiddlewareFn (authOk : Bool) (middlewares : List MIDDLEWARE) : GateResult :=
  getMiddlewareFnLoop authOk middlewares middlewares 0

/-- The effective middleware list a route binding is installed with:
`defaultMiddlewares.concat(route.middlewares)` in `Application.routes`. -/
def effectiveMiddlewares (defaults routeMws : List MIDDLEWARE) : List MIDDLEWARE :=
  defaults ++ routeMws

/-- The route's controller function runs exactly when the gate called `next()`. -/
def handlerInvoked (authOk : Bool) (middlewares : List MIDDLEWARE) : Bool :=
  (getMiddlewareFn authOk middlewares).outcome == .next

/-! Section: Route path handling (`sanitizePath`, `Application.routes`) -/

/-- JavaScript `String.prototype.replace('//', '/')`: replaces only the FIRST
occurrence of `//`. -/
def replaceFirstDouble : List Char → List Char
  | '/' :: '/' :: rest => '/' :: rest
  | c :: rest => c :: replaceFirstDouble rest
  | [] => []

/-- JavaScript `String.prototype.replace(/\/\//g, '/')`: replaces every
occurrence of `//`, continuing after each replacement (the replacement
character is not rescanned). -/
def replaceAllDouble : List Char → List Char
  | '/' :: '/' :: rest => '/' :: replaceAllDouble rest
  | c :: rest => c :: replaceAllDouble rest
  | [] => []

/-- Function `sanitizePath(path)` from the controller utilities: prepend `/` when the
first character is not `/` (for the empty string `path[0]` is `undefined`,
which also triggers the prepend), then `path.replace('//', '/')`.  The
argument is `Option`-valued because callers pass `options.path`, which may be
`undefined`, selecting the default parameter `'/'`. -/
def sanitizePath (path : Option String) : String :=
  let p := path.getD "/"
  let p := if p.data.head? = some '/' then p else "/" ++ p
  ⟨replaceFirstDouble p.data⟩

/-- True when the string contains two adjacent slashes. -/
def hasDoubledSlash : List Char → Bool
  | '/' :: '/' :: _ => true
  | _ :: rest => hasDoubledSlash rest
  | [] => false

/-- A route entry as accumulated by the `Get`/`Post`/`Put`/`Delete`/`Options`
decorators (`RouteDefinition` minus the handler name, which the installation
claims do not inspect). -/
structure RouteDefinition where
  requestMethod : String
  path : String
  methodName : String
deriving DecidableEq, Repr

/-- A verb decorator call: appends `{requestMethod, path: sanitizePath(options.path), methodName}`
to the type's `routes` metadata list. -/
def registerRoute (routes : List RouteDefinition) (method : String)
    (path : Option String) (methodName : String) : List RouteDefinition :=
  routes ++ [{ requestMethod := method, path := sanitizePath path, methodName := methodName }]

/-- The express path a binding is installed at by `Application.routes`:
`(prefix + route.path).replace(/\/\//g, '/')`. -/
def installedPath (pfx : String) (routePath : String) : String :=
  ⟨replaceAllDouble (pfx ++ routePath).data⟩

/-- Function `Application.routes` installs one binding per accumulated route, in order. -/
def installRoutes (pfx : String) (routes : List RouteDefinition) :
    List (String × String) :=
  routes.map fun r => (r.requestMethod, installedPath pfx r.path)

/-! Section: Response envelope (`Respond`) -/

/-- The `RESPONSE_TYPE` enum of the controller utilities. -/
inductive RESPONSE_TYPE where
  | JSON
  | HTML
  | RAW
  | STREAM
deriving DecidableEq, Repr

/-- The fields of a `ResponseObject` passed to `Respond` (minus the transport
handle itself).  Optional fields are `Option`-valued; `none` models an omitted
or `undefined` field, which `Respond` then defaults (`?? STATUS_CODE.OK`,
`?? {}`, `?? null`, `?? RESPONSE_TYPE.JSON`, `?? null`). -/
structure ResponseObject where
  status : Option IStatusCode := none
  data : Option String := none
  stream : Option Nat := none
  type : Option RESPONSE_TYPE := none
  header : Option (List (String × String)) := none
deriving DecidableEq, Repr

/-- What `Respond` did with the transport handle. -/
inductive RespondResult where
  /-- Headers, status and a serialized body were written via `send`. -/
  | written (headers : List (String × String)) (contentType : Option String)
      (status : IStatusCode) (body : String)
  /-- The STREAM branch ran: `stream.pipeline(handle, passthrough, cb)` was
  invoked with the given (possibly null) stream handle. -/
  | streamed (headers : List (String × String)) (handle : Option Nat)
  /-- A string exception was thrown out of `Respond`. -/
  | thrown (msg : String)
deriving DecidableEq, Repr

/-- Function `Respond(responseObject)` for a synchronous, non-null transport handle:
defaults the optional fields, appends any supplied headers, then dispatches on
the response type.  `JSON.stringify(data)` is left opaque (the body is carried
as the already-serialized `data` string; the defaulted payload `{}` serializes
to `"\x7b\x7d"`, kept abstract as `"\x7b\x7d"`). -/
def Respond (r : ResponseObject) : RespondResult :=
  let status := r.status.getD STATUS_CODE.OK
  let data := r.data.getD "\x7b\x7d"
  let streamHandle := r.stream
  let type := r.type.getD RESPONSE_TYPE.JSON
  let header := r.header
  let appended := header.getD []
  match type with
  | RESPONSE_TYPE.JSON =>
    .written appended (some "application/json; charset=utf-8") status data
  | RESPONSE_TYPE.HTML =>
    .written appended (some "text/html; charset=utf-8") status data
  | RESPONSE_TYPE.RAW =>
    if header = none then
      .thrown "RESPONSE_TYPE.RAW requires response.headers to be set!"
    else
      .written appended none status data
  | RESPONSE_TYPE.STREAM =>
    if header = none then
      .thrown "RESPONSE_TYPE.STREAM obviously requires response.stream to be set!"
    else
      .streamed appended streamHandle

/-! Section: Dependency container (`utilities/injector.ts`) -/

/-- A constructor-function token as handed to `Injector.resolve`.  `some n`
is a defined class (numbered `n`); `none` is the `undefined` value that a
broken (e.g. circular) import produces. -/
abbrev Token := Option Nat

/-- The ambient class declarations: per class, its `design:paramtypes`
metadata (`[]` when the metadata is absent), whether `new target(...)`
throws, the message it throws with, and how `${target}` prints. -/
structure InjEnv where
  deps : Nat → List Token
  ctorThrows : Nat → Bool
  ctorMsg : Nat → String
  tokName : Nat → String

/-- The container's mutable state: the `instances` array as (token, object
reference) pairs, plus an allocation counter giving each `new` a fresh
object identity. -/
structure InjState where
  instances : List (Nat × Nat)
  next : Nat
deriving DecidableEq, Repr

/-- The message of `throw new Error('Cannot resolve undefined type')`. -/
def undefinedTypeMsg : String := "Cannot resolve undefined type"

/-- The wrapping in the `catch` block of `resolve`:
`` `Cannot resolve type ${target}: ${error.message}` ``. -/
def wrapMsg (env : InjEnv) (n : Nat) (inner : String) : String :=
  "Cannot resolve type " ++ env.tokName n ++ ": " ++ inner

/-- Lookup `this.instances.find(entry => entry.type === target)`, projected to the
stored instance reference. -/
def lookupInstance (st : InjState) (n : Nat) : Option Nat :=
  (st.instances.find? fun e => e.1 = n).map (·.2)

/-- Models `tokens.map(token => Injector.resolve(token))`: resolve a dependency list
left to right with a given resolver, aborting on the first exception (earlier
state mutations persist, as in JavaScript). -/
def resolveDepsWith (r : InjState → Token → InjState × Except String Nat) :
    InjState → List Token → InjState × Except String (List Nat)
  | st, [] => (st, .ok [])
  | st, d :: ds =>
    match r st d with
    | (st₂, .error m) => (st₂, .error m)
    | (st₂, .ok i) =>
      match resolveDepsWith r st₂ ds with
      | (st₃, .error m) => (st₃, .error m)
      | (st₃, .ok is) => (st₃, .ok (i :: is))

/-- Function `Injector.resolve(target)`.  Fuel bounds the recursion depth; running out
of fuel models the stack overflow a cyclic token graph produces.  An
`undefined` target throws before the `try`, so that message is not wrapped;
inside the `try`, dependencies are resolved first, then the instance table is
consulted, and only on a miss is the constructor run and the new instance
appended.  Every exception inside the `try` is wrapped with the target. -/
def resolve (env : InjEnv) : Nat → InjState → Token → InjState × Except String Nat
  | 0, st, _ => (st, .error "Maximum call stack size exceeded")
  | _ + 1, st, none => (st, .error undefinedTypeMsg)
  | fuel + 1, st, some n =>
    match resolveDepsWith (resolve env fuel) st (env.deps n) with
    | (st₂, .error m) => (st₂, .error (wrapMsg env n m))
    | (st₂, .ok _) =>
      match lookupInstance st₂ n with
      | some i => (st₂, .ok i)
      | none =>
        if env.ctorThrows n then
          (st₂, .error (wrapMsg env n (env.ctorMsg n)))
        else
          ({ instances := st₂.instances ++ [(n, st₂.next)], next := st₂.next + 1 },
            .ok st₂.next)

/-- State `st'` extends `st`: the instances array only ever grows by `push`. -/
def InjExt (st st' : InjState) : Prop :=
  ∃ tail, st'.instances = st.instances ++ tail

theorem InjExt.refl (st : InjState) : InjExt st st :=
  ⟨[], by simp⟩

theorem InjExt.trans {a b c : InjState} (h₁ : InjExt a b) (h₂ : InjExt b c) : InjExt a c := by
  obtain ⟨t₁, ht₁⟩ := h₁
  obtain ⟨t₂, ht₂⟩ := h₂
  exact ⟨t₁ ++ t₂, by simp [ht₂, ht₁]⟩

theorem lookupInstance_mono {st st' : InjState} {n i : Nat}
    (h : lookupInstance st n = some i) (hext : InjExt st st') :
    lookupInstance st' n = some i := by
  obtain ⟨tl, htl⟩ := hext
  unfold lookupInstance at h ⊢
  rw [htl, List.find?_append]
  rcases hf : st.instances.find? fun e => e.1 = n with _ | e
  · simp [hf] at h
  · simpa [hf] using h

theorem lookupInstance_none_append {st : InjState} {n : Nat} {tl : List (Nat × Nat)} {m : Nat}
    (h : lookupInstance st n = none) :
    lookupInstance ⟨st.instances ++ tl, m⟩ n = (tl.find? fun e => e.1 = n).map (·.2) := by
  unfold lookupInstance at h ⊢
  rw [List.find?_append]
  rcases hf : st.instances.find? fun e => e.1 = n with _ | e
  · simp [hf]
  · simp [hf] at h

theorem resolveDepsWith_ext (r : InjState → Token → InjState × Except String Nat)
    (hr : ∀ st t, InjExt st (r st t).1) :
    ∀ (ds : List Token) (st : InjState), InjExt st (resolveDepsWith r st ds).1 := by
  intro ds
  induction ds with
  | nil => intro st; exact InjExt.refl st
  | cons d ds ih =>
    intro st
    have h₁ := hr st d
    rcases hd : r st d with ⟨st₂, res⟩
    rw [hd] at h₁
    rcases res with m | i
    · simpa [resolveDepsWith, hd] using h₁
    · have h₂ := ih st₂
      rcases hds : resolveDepsWith r st₂ ds with ⟨st₃, res₂⟩
      rw [hds] at h₂
      rcases res₂ with m | is
      · simpa [resolveDepsWith, hd, hds] using h₁.trans h₂
      · simpa [resolveDepsWith, hd, hds] using h₁.trans h₂

theorem resolve_ext (env : InjEnv) :
    ∀ (fuel : Nat) (st : InjState) (t : Token), InjExt st (resolve env fuel st t).1 := by
  intro fuel
  induction fuel with
  | zero => intro st t; exact InjExt.refl st
  | succ fuel ih =>
    intro st t
    rcases t with _ | n
    · exact InjExt.refl st
    · have hdeps := resolveDepsWith_ext (resolve env fuel) (fun st t => ih st t) (env.deps n) st
      rcases hd : resolveDepsWith (resolve env fuel) st (env.deps n) with ⟨st₂, res⟩
      rw [hd] at hdeps
      rcases res with m | is
      · simpa [resolve, hd] using hdeps
      · rcases hl : lookupInstance st₂ n with _ | i
        · by_cases hc : env.ctorThrows n
          · simpa [resolve, hd, hl, hc] using hdeps
          · refine InjExt.trans hdeps ?_
            simp only [resolve, hd, hl, hc]
            exact ⟨[(n, st₂.next)], by simp⟩
        · simpa [resolve, hd, hl] using hdeps

theorem lookupInstance_congr {st st' : InjState} (n : Nat)
    (h : st.instances = st'.instances) : lookupInstance st n = lookupInstance st' n := by
  unfold lookupInstance
  rw [h]

theorem resolveDepsWith_ok_stable (r : InjState → Token → InjState × Except String Nat)
    (hr : ∀ st t st' i, r st t = (st', .ok i) →
      InjExt st st' ∧ ∀ st'', InjExt st' st'' → r st'' t = (st'', .ok i)) :
    ∀ (ds : List Token) (st st' : InjState) (is : List Nat),
      resolveDepsWith r st ds = (st', .ok is) →
      InjExt st st' ∧ ∀ st'', InjExt st' st'' → resolveDepsWith r st'' ds = (st'', .ok is) := by
  intro ds
  induction ds with
  | nil =>
    intro st st' is h
    simp only [resolveDepsWith, Prod.mk.injEq, Except.ok.injEq] at h
    obtain ⟨rfl, rfl⟩ := h
    exact ⟨InjExt.refl st, fun st'' _ => rfl⟩
  | cons d ds ih =>
    intro st st' is h
    rcases hd : r st d with ⟨st₂, resd⟩
    rcases resd with m | i
    · simp [resolveDepsWith, hd] at h
    · rcases hds : resolveDepsWith r st₂ ds with ⟨st₃, ress⟩
      rcases ress with m | is₂
      · simp [resolveDepsWith, hd, hds] at h
      · simp only [resolveDepsWith, hd, hds, Prod.mk.injEq, Except.ok.injEq] at h
        obtain ⟨rfl, rfl⟩ := h
        obtain ⟨hext₁, hstab₁⟩ := hr st d st₂ i hd
        obtain ⟨hext₂, hstab₂⟩ := ih st₂ st₃ is₂ hds
        refine ⟨hext₁.trans hext₂, fun st'' hext'' => ?_⟩
        have hd'' : r st'' d = (st'', .ok i) := hstab₁ st'' (hext₂.trans hext'')
        have hds'' : resolveDepsWith r st'' ds = (st'', .ok is₂) := hstab₂ st'' hext''
        simp [resolveDepsWith, hd'', hds'']

theorem resolve_ok_stable (env : InjEnv) :
    ∀ (fuel : Nat) (st : InjState) (t : Token) (st' : InjState) (i : Nat),
      resolve env fuel st t = (st', .ok i) →
      InjExt st st' ∧ ∀ st'', InjExt st' st'' → resolve env fuel st'' t = (st'', .ok i) := by
  intro fuel
  induction fuel with
  | zero => intro st t st' i h; simp [resolve] at h
  | succ fuel ih =>
    intro st t st' i h
    rcases t with _ | n
    · simp [resolve] at h
    · rcases hd : resolveDepsWith (resolve env fuel) st (env.deps n) with ⟨st₂, resd⟩
      rcases resd with m | is
      · simp [resolve, hd] at h
      · obtain ⟨hext₁, hstab₁⟩ :=
          resolveDepsWith_ok_stable (resolve env fuel) ih (env.deps n) st st₂ is hd
        rcases hl : lookupInstance st₂ n with _ | j
        · by_cases hc : env.ctorThrows n = true
          · simp only [resolve, hd, hl] at h
            rw [if_pos hc] at h
            simp at h
          · simp only [resolve, hd, hl] at h
            rw [if_neg hc] at h
            simp only [Prod.mk.injEq, Except.ok.injEq] at h
            obtain ⟨h1, h2⟩ := h
            subst h1
            subst h2
            have hpush : InjExt st₂ ⟨st₂.instances ++ [(n, st₂.next)], st₂.next + 1⟩ :=
              ⟨[(n, st₂.next)], rfl⟩
            refine ⟨hext₁.trans hpush, fun st'' hext'' => ?_⟩
            have hds'' := hstab₁ st'' (hpush.trans hext'')
            obtain ⟨tail, htail⟩ := hext''
            have hinst : st''.instances = st₂.instances ++ ((n, st₂.next) :: tail) := by
              simp only [htail]
              simp
            have hll : lookupInstance st'' n = some st₂.next := by
              rw [@lookupInstance_congr st''
                  ⟨st₂.instances ++ ((n, st₂.next) :: tail), st''.next⟩ n hinst,
                lookupInstance_none_append hl]
              simp
            simp only [resolve, hds'', hll]
        · simp only [resolve, hd, hl, Prod.mk.injEq, Except.ok.injEq] at h
          obtain ⟨h1, h2⟩ := h
          subst h1
          subst h2
          refine ⟨hext₁, fun st'' hext'' => ?_⟩
          have hds'' := hstab₁ st'' hext''
          have hll := lookupInstance_mono hl hext''
          simp only [resolve, hds'', hll]

theorem resolveDepsWith_no_push (r : InjState → Token → InjState × Except String Nat)
    (k : Nat) (hr : ∀ st t, lookupInstance st k = none → lookupInstance (r st t).1 k = none) :
    ∀ (ds : List Token) (st : InjState), lookupInstance st k = none →
      lookupInstance (resolveDepsWith r st ds).1 k = none := by
  intro ds
  induction ds with
  | nil => intro st h; exact h
  | cons d ds ih =>
    intro st h
    have h₁ := hr st d h
    rcases hd : r st d with ⟨st₂, resd⟩
    rw [hd] at h₁
    rcases resd with m | i
    · simpa [resolveDepsWith, hd] using h₁
    · have h₂ := ih st₂ h₁
      rcases hds : resolveDepsWith r st₂ ds with ⟨st₃, ress⟩
      rw [hds] at h₂
      rcases ress with m | is
      · simpa [resolveDepsWith, hd, hds] using h₂
      · simpa [resolveDepsWith, hd, hds] using h₂

theorem resolve_no_push_of_ctorThrows (env : InjEnv) (k : Nat)
    (hk : env.ctorThrows k = true) :
    ∀ (fuel : Nat) (st : InjState) (t : Token), lookupInstance st k = none →
      lookupInstance (resolve env fuel st t).1 k = none := by
  intro fuel
  induction fuel with
  | zero => intro st t h; exact h
  | succ fuel ih =>
    intro st t h
    rcases t with _ | n
    · exact h
    · have hdeps := resolveDepsWith_no_push (resolve env fuel) k
        (fun st t h => ih st t h) (env.deps n) st h
      rcases hd : resolveDepsWith (resolve env fuel) st (env.deps n) with ⟨st₂, resd⟩
      rw [hd] at hdeps
      rcases resd with m | is
      · simpa [resolve, hd] using hdeps
      · rcases hl : lookupInstance st₂ n with _ | j
        · by_cases hc : env.ctorThrows n = true
          · simp only [resolve, hd, hl]
            rw [if_pos hc]
            exact hdeps
          · have hkn : k ≠ n := fun he => hc (he ▸ hk)
            simp only [resolve, hd, hl]
            rw [if_neg hc]
            rw [lookupInstance_none_append hdeps]
            have hnk : (decide (n = k)) = false := decide_eq_false fun he => hkn he.symm
            simp [List.find?, hnk]
        · simpa [resolve, hd, hl] using hdeps

/-- A concrete class graph used to witness the injector theorems:
class 2 depends on classes 0 and 1 (which have no dependencies); no
constructor throws. -/
def demoEnv : InjEnv where
  deps n := if n = 2 then [some 0, some 1] else []
  ctorThrows _ := false
  ctorMsg _ := ""
  tokName n := "class T" ++ toString n

/-- A class graph where class 1 depends on class 0 and class 1's constructor
throws. -/
def throwEnv : InjEnv where
  deps n := if n = 1 then [some 0] else []
  ctorThrows n := n = 1
  ctorMsg _ := "boom"
  tokName n := "class T" ++ toString n

/-- Claim C1: a second `Injector.resolve(T)` on the same token returns the
very same instance reference recorded by the first call and leaves the
container state untouched (in particular the allocation counter does not
move, so no new instance of `T` is constructed). -/
theorem resolve_second_call_identical (env : InjEnv) (fuel : Nat) (st st₁ : InjState)
    (t : Token) (i : Nat) (h : resolve env fuel st t = (st₁, .ok i)) :
    resolve env fuel st₁ t = (st₁, .ok i) :=
  ((resolve_ok_stable env fuel st t st₁ i h).2) st₁ (InjExt.refl st₁)

/-- Witness for C1 on `demoEnv`: resolving class 2 from the empty container
constructs 0, 1, 2 (references 0, 1, 2), and a second resolve returns
reference 2 with the state unchanged. -/
theorem resolve_second_call_identical_witness :
    resolve demoEnv 3 ⟨[], 0⟩ (some 2) = (⟨[(0, 0), (1, 1), (2, 2)], 3⟩, .ok 2) ∧
    resolve demoEnv 3 ⟨[(0, 0), (1, 1), (2, 2)], 3⟩ (some 2) =
      (⟨[(0, 0), (1, 1), (2, 2)], 3⟩, .ok 2) :=
  ⟨by rfl, resolve_second_call_identical demoEnv 3 ⟨[], 0⟩ ⟨[(0, 0), (1, 1), (2, 2)], 3⟩
    (some 2) 2 (by rfl)⟩

/-- Claim C6, counterexample: the claim says resolving a never-declared token
fails with a resolution error naming the token.  In the code there is no
registration table at all: a defined class that was never declared (here
class 5, absent from the empty container) is simply constructed and
recorded, and `resolve` returns it successfully. -/
theorem resolve_undeclared_token_succeeds :
    resolve demoEnv 2 ⟨[], 0⟩ (some 5) = (⟨[(5, 0)], 1⟩, .ok 0) := by
  rfl

/-- Claim C6, amended: only the `undefined` token makes `resolve` throw, and
its message is the fixed string `Cannot resolve undefined type`, which names
no token; a defined token with no metadata and a non-throwing constructor is
constructed and registered even if it was never declared. -/
theorem resolve_unknown_token_amended (env : InjEnv) (fuel : Nat) (st : InjState) (n : Nat)
    (hdeps : env.deps n = []) (hctor : env.ctorThrows n = false)
    (hmiss : lookupInstance st n = none) :
    resolve env (fuel + 1) st none = (st, .error undefinedTypeMsg) ∧
    resolve env (fuel + 1) st (some n) =
      (⟨st.instances ++ [(n, st.next)], st.next + 1⟩, .ok st.next) := by
  constructor
  · rfl
  · simp only [resolve, hdeps, resolveDepsWith, hmiss]
    rw [if_neg (by simp [hctor])]

/-- Witness for the amended C6 at class 7 of `demoEnv` and the empty
container. -/
theorem resolve_unknown_token_amended_witness :
    demoEnv.deps 7 = [] ∧ demoEnv.ctorThrows 7 = false ∧
    lookupInstance ⟨[], 0⟩ 7 = none ∧
    resolve demoEnv 4 ⟨[], 0⟩ none = (⟨[], 0⟩, .error undefinedTypeMsg) ∧
    resolve demoEnv 4 ⟨[], 0⟩ (some 7) = (⟨[(7, 0)], 1⟩, .ok 0) := by
  refine ⟨by decide, by decide, by decide, ?_, ?_⟩
  · exact (resolve_unknown_token_amended demoEnv 3 ⟨[], 0⟩ 7 (by decide) (by decide)
      (by decide)).1
  · exact (resolve_unknown_token_amended demoEnv 3 ⟨[], 0⟩ 7 (by decide) (by decide)
      (by decide)).2

/-- Claim C8, counterexample: resolving class 1 of `throwEnv` (whose
constructor throws) first constructs and records its dependency class 0;
the failed call therefore leaves the registry changed, contradicting the
claim that a failed `resolve` leaves the instance registry unchanged. -/
theorem resolve_failed_call_changes_registry :
    resolve throwEnv 3 ⟨[], 0⟩ (some 1) =
      (⟨[(0, 0)], 1⟩, .error "Cannot resolve type class T1: boom") ∧
    (⟨[(0, 0)], 1⟩ : InjState) ≠ ⟨[], 0⟩ := by
  constructor
  · rfl
  · intro h
    simp at h

/-- Claim C8, amended: when `resolve` on a defined token fails, the exception
reaches the caller wrapped with the offending type token; the registry may
have grown (dependencies constructed before the failure stay recorded), but
it only grows, and a type whose constructor throws is never recorded by any
call. -/
theorem resolve_failure_semantics_amended (env : InjEnv) (fuel : Nat) (st st' : InjState)
    (n : Nat) (m : String) (h : resolve env (fuel + 1) st (some n) = (st', .error m)) :
    InjExt st st' ∧ (∃ inner, m = wrapMsg env n inner) ∧
    (∀ k, env.ctorThrows k = true → lookupInstance st k = none →
      lookupInstance st' k = none) := by
  refine ⟨?_, ?_, ?_⟩
  · have := resolve_ext env (fuel + 1) st (some n)
    rwa [h] at this
  · rcases hd : resolveDepsWith (resolve env fuel) st (env.deps n) with ⟨st₂, resd⟩
    rcases resd with m' | is
    · simp only [resolve, hd, Prod.mk.injEq, Except.error.injEq] at h
      exact ⟨m', h.2.symm⟩
    · rcases hl : lookupInstance st₂ n with _ | j
      · by_cases hc : env.ctorThrows n = true
        · simp only [resolve, hd, hl] at h
          rw [if_pos hc] at h
          simp only [Prod.mk.injEq, Except.error.injEq] at h
          exact ⟨env.ctorMsg n, h.2.symm⟩
        · simp only [resolve, hd, hl] at h
          rw [if_neg hc] at h
          simp at h
      · simp [resolve, hd, hl] at h
  · intro k hk hmiss
    have := resolve_no_push_of_ctorThrows env k hk (fuel + 1) st (some n) hmiss
    rwa [h] at this

/-- Witness for the amended C8 on `throwEnv`: the failed resolve of class 1
extends the registry by its dependency, wraps the constructor message with
the offending token, and never records class 1 itself. -/
theorem resolve_failure_semantics_amended_witness :
    resolve throwEnv 3 ⟨[], 0⟩ (some 1) =
      (⟨[(0, 0)], 1⟩, .error "Cannot resolve type class T1: boom") ∧
    InjExt ⟨[], 0⟩ ⟨[(0, 0)], 1⟩ ∧
    (∃ inner, "Cannot resolve type class T1: boom" = wrapMsg throwEnv 1 inner) ∧
    (∀ k, throwEnv.ctorThrows k = true → lookupInstance ⟨[], 0⟩ k = none →
      lookupInstance ⟨[(0, 0)], 1⟩ k = none) := by
  have h : resolve throwEnv 3 ⟨[], 0⟩ (some 1) =
      (⟨[(0, 0)], 1⟩, .error "Cannot resolve type class T1: boom") := by rfl
  have ha := resolve_failure_semantics_amended throwEnv 2 ⟨[], 0⟩ ⟨[(0, 0)], 1⟩ 1
    "Cannot resolve type class T1: boom" h
  exact ⟨h, ha.1, ha.2.1, ha.2.2⟩

theorem getMiddlewareFnLoop_no_auth (authOk : Bool) (all : List MIDDLEWARE)
    (hall : MIDDLEWARE.NO_AUTH ∈ all) :
    ∀ (l : List MIDDLEWARE) (n : Nat),
      getMiddlewareFnLoop authOk all l n =
        { authChecks := n, responded := none, outcome := .next } := by
  intro l
  induction l with
  | nil => intro n; rfl
  | cons m rest ih =>
    intro n
    rcases m with _ | _ | _
    · simp [getMiddlewareFnLoop, hall, ih]
    · simp [getMiddlewareFnLoop, ih]
    · simp [getMiddlewareFnLoop, ih]

theorem getMiddlewareFnLoop_auth_fails (all : List MIDDLEWARE)
    (hall : MIDDLEWARE.NO_AUTH ∉ all) :
    ∀ (l : List MIDDLEWARE), MIDDLEWARE.AUTH ∈ l → ∀ (n : Nat),
      getMiddlewareFnLoop false all l n =
        { authChecks := n + 1, responded := some STATUS_CODE.UNAUTHORIZED,
          outcome := .unauthorized } := by
  intro l
  induction l with
  | nil => intro h; simp at h
  | cons m rest ih =>
    intro hmem n
    rcases m with _ | _ | _
    · simp [getMiddlewareFnLoop, hall]
    · have hrest : MIDDLEWARE.AUTH ∈ rest := by
        rcases List.mem_cons.1 hmem with h | h
        · exact absurd h (by simp)
        · exact h
      simp [getMiddlewareFnLoop, ih hrest]
    · have hrest : MIDDLEWARE.AUTH ∈ rest := by
        rcases List.mem_cons.1 hmem with h | h
        · exact absurd h (by simp)
        · exact h
      simp [getMiddlewareFnLoop, ih hrest]

/-- Claim C5: on the effective middleware list of a route (controller defaults
concatenated with route tags): when `NO_AUTH` is present the gate never
invokes the external authorization check and falls through to the handler;
when `AUTH` is present without `NO_AUTH` and the authorization check fails,
the gate writes an `UNAUTHORIZED` envelope and the handler is never
invoked. -/
theorem middleware_gate_auth (defaults routeMws : List MIDDLEWARE) (authOk : Bool) :
    ((effectiveMiddlewares defaults routeMws).contains .NO_AUTH = true →
      (getMiddlewareFn authOk (effectiveMiddlewares defaults routeMws)).authChecks = 0 ∧
      (getMiddlewareFn authOk (effectiveMiddlewares defaults routeMws)).outcome = .next) ∧
    ((effectiveMiddlewares defaults routeMws).contains .AUTH = true →
      (effectiveMiddlewares defaults routeMws).contains .NO_AUTH = false →
      authOk = false →
      (getMiddlewareFn authOk (effectiveMiddlewares defaults routeMws)).responded =
        some STATUS_CODE.UNAUTHORIZED ∧
      handlerInvoked authOk (effectiveMiddlewares defaults routeMws) = false) := by
  constructor
  · intro hn
    have hn₂ : MIDDLEWARE.NO_AUTH ∈ effectiveMiddlewares defaults routeMws := by
      simpa using hn
    rw [getMiddlewareFn, getMiddlewareFnLoop_no_auth authOk _ hn₂]
    exact ⟨rfl, rfl⟩
  · intro hauth hn hfail
    have hauth₂ : MIDDLEWARE.AUTH ∈ effectiveMiddlewares defaults routeMws := by
      simpa using hauth
    have hn' : MIDDLEWARE.NO_AUTH ∉ effectiveMiddlewares defaults routeMws := by
      simpa using hn
    subst hfail
    rw [handlerInvoked, getMiddlewareFn,
      getMiddlewareFnLoop_auth_fails _ hn' _ hauth₂ 0]
    exact ⟨rfl, rfl⟩

/-- Witness for C5: a route with tags `[AUTH, NO_AUTH]` performs no
authorization check even when the check would fail, and a route with tags
`[AUTH]` alone rejects with `UNAUTHORIZED` and skips the handler when the
check fails. -/
theorem middleware_gate_auth_witness :
    (getMiddlewareFn false (effectiveMiddlewares [] [.AUTH, .NO_AUTH])).authChecks = 0 ∧
    (getMiddlewareFn false (effectiveMiddlewares [] [.AUTH, .NO_AUTH])).outcome = .next ∧
    (getMiddlewareFn false (effectiveMiddlewares [] [.AUTH])).responded =
      some STATUS_CODE.UNAUTHORIZED ∧
    handlerInvoked false (effectiveMiddlewares [] [.AUTH]) = false := by
  have h1 := (middleware_gate_auth [] [.AUTH, .NO_AUTH] false).1 (by decide)
  have h2 := (middleware_gate_auth [] [.AUTH] false).2 (by decide) (by decide) rfl
  exact ⟨h1.1, h1.2, h2.1, h2.2⟩

/-- Claim C7, counterexample: `sanitizePath` only replaces the FIRST doubled
slash (`String.replace` with a string pattern), so `'///x'` sanitizes to
`'//x'`: the result starts with two slashes and still contains a doubled
slash, contradicting the claim that every sanitized path has exactly one
leading slash and no doubled slashes. -/
theorem sanitizePath_keeps_doubled_slash :
    sanitizePath (some "///x") = "//x" ∧
    hasDoubledSlash (sanitizePath (some "///x")).data = true ∧
    (sanitizePath (some "a//b//c") = "/a/b//c" ∧
      hasDoubledSlash (sanitizePath (some "a//b//c")).data = true) := by
  refine ⟨rfl, rfl, rfl, rfl⟩

/-- Claim C7, amended: `sanitizePath` guarantees only a leading slash
(prepending one when absent) and collapses just the first doubled slash;
the doubled-slash collapsing of installed routes happens in
`Application.routes`, whose global-regex join of prefix and route path
installs `GET /` and `GET /:id` of a controller with prefix `/items` at
exactly `/items/` and `/items/:id`, once each. -/
theorem sanitizePath_amended (p : Option String) :
    (sanitizePath p).data.head? = some '/' ∧
    installRoutes "/items"
        (registerRoute (registerRoute [] "get" none "getAll") "get" (some "/:id") "getById") =
      [("get", "/items/"), ("get", "/items/:id")] := by
  constructor
  · rcases p with _ | s
    · rfl
    · show (⟨replaceFirstDouble _⟩ : String).data.head? = some '/'
      by_cases h : s.data.head? = some '/'
      · rcases hs : s.data with _ | ⟨c, cs⟩
        · simp [hs] at h
        · have hc : c = '/' := by simpa [hs] using h
          subst hc
          rcases cs with _ | ⟨c₂, cs₂⟩
          · simp [sanitizePath, hs, replaceFirstDouble]
          · by_cases h₂ : c₂ = '/'
            · subst h₂
              simp [sanitizePath, hs, replaceFirstDouble]
            · simp [sanitizePath, hs, replaceFirstDouble, h₂]
      · simp only [sanitizePath, h, if_false, Option.getD_some]
        rcases s with ⟨_ | ⟨c, cs⟩⟩
        · rfl
        · have hc : c ≠ '/' := by
            intro hc
            exact h (by simp [String.data, hc])
          show (⟨replaceFirstDouble (("/" ++ String.mk (c :: cs)).data)⟩ : String).data.head? =
            some '/'
          simp [String.data, replaceFirstDouble, hc]
  · rfl

/-- Claim C9: `Respond` in RAW mode with no header map throws the RAW usage
error.  But in STREAM mode the guard also tests `response.header` (not
`response.stream`, which its own message and doc comment demand): with a
header map supplied and a null stream handle, `Respond` does not throw the
usage error and instead hands the null handle to `stream.pipeline`; and with
a stream supplied but no header map it throws even though the stream is
there. -/
theorem respond_stream_guard_tests_header :
    Respond { type := some .RAW } =
      .thrown "RESPONSE_TYPE.RAW requires response.headers to be set!" ∧
    Respond { type := some .STREAM, stream := none, header := some [("X", "y")] } =
      .streamed [("X", "y")] none ∧
    Respond { type := some .STREAM, stream := some 0, header := none } =
      .thrown "RESPONSE_TYPE.STREAM obviously requires response.stream to be set!" := by
  exact ⟨rfl, rfl, rfl⟩

/-! Section: Checksum cache (`Cache`, `DataController`) -/

/-- A data row as handled by `DataController` (a `MongoEntity`): the optional
`id` property (`none` models an object without an own `id` property) plus an
opaque payload standing for the remaining fields. -/
structure Row where
  id : Option String
  payload : String
deriving DecidableEq, Repr

/-- The string the comparator uses for its SECOND argument: `SortFn("id")`
interpolates `b[key]` into `a[key].localeCompare(b[key])`, and `localeCompare`
coerces a missing second argument to the string `"undefined"`.  A missing
`id` in the FIRST argument never reaches `localeCompare`: it takes `SortFn`'s
throwing `default:` branch instead (see `SortFn`). -/
def rowIdKey (r : Row) : String :=
  r.id.getD "undefined"

/-- Message of the `default:` branch of `SortFn` in `data.service.ts`
(`` `Can't sort by key "${key}" of type ${type}` `` for key `id`, where a row
without an own `id` property gives `typeof a["id"] = 'undefined'`). -/
def sortFnThrowMsg : String := "Can\x27t sort by key \x22id\x22 of type undefined"

/-- The comparator `SortFn("id")` from `data.service.ts` applied to two rows.
`MongoEntity` declares `id` as an optional string, so `typeof a["id"]` is
either `'string'` — the `localeCompare` arm, ascending, with a missing second
argument coerced to `"undefined"` (Lean's string order stands in for the
locale collation) — or `'undefined'`, which falls to the throwing `default:`
branch.  (The `'number'` arm, descending, is unreachable for string-typed
ids and not modelled.) -/
def SortFn (a b : Row) : Except String Int :=
  match a.id with
  | some s =>
    .ok (if s < rowIdKey b then -1 else if rowIdKey b < s then 1 else 0)
  | none => .error sortFnThrowMsg

/-- Execution of `data.sort(SortFn("id"))` on an array of at least two rows:
when every row carries an `id`, every comparison takes `SortFn`'s `.ok` arm
and the call sorts ascending by the id string; when some row lacks `id`, the
engine passes that row as the comparator's first argument while placing it
(every non-initial element is the first argument of at least one comparison),
so the sort throws `SortFn`'s error.  `getAll` only reaches this call when
the first row has an `id`, so the two checks agree there. -/
def sortRowsWithSortFn (rows : List Row) : Except String (List Row) :=
  if rows.all fun r => r.id.isSome then
    .ok (rows.insertionSort fun a b => rowIdKey a ≤ rowIdKey b)
  else
    .error sortFnThrowMsg

/-- The body computation on `getAll`'s respond path: the sort runs only when
`data.length > 1 && data[0].hasOwnProperty("id")`; otherwise the rows pass
through unsorted.  An `.error` is the exception `Array.sort` propagates out
of the comparator into `getAll`'s `catch`. -/
def getAllBody (rows : List Row) : Except String (List Row) :=
  if 1 < rows.length ∧ (rows.head?.map fun r => r.id.isSome).getD false then
    sortRowsWithSortFn rows
  else
    .ok rows

/-- The rows `data.sort(SortFn("id"))` produces in its success case (every
row carries an `id`); used by the heap model as the value an in-place sort
writes — the clone-isolation property is independent of the value written.
The fallible execution including `SortFn`'s throwing branch is
`sortRowsWithSortFn`. -/
def sortedRows (rows : List Row) : List Row :=
  rows.insertionSort fun a b => rowIdKey a ≤ rowIdKey b

/-- The rows `getAll` responds with when the sort succeeds: sorted when
`data.length > 1 && data[0].hasOwnProperty("id")`, unsorted otherwise.  The
fallible version the embedded handler uses is `getAllBody`. -/
def sortedBody (rows : List Row) : List Row :=
  if 1 < rows.length ∧ (rows.head?.map fun r => r.id.isSome).getD false then
    sortedRows rows
  else
    rows

/-- The two opaque hash functions the cache uses: `hash({path, params, body})`
for the cache key and `hash(data)` (from `@konfirm/checksum`) for the content
checksum.  Both are deterministic functions of their input. -/
structure HashCfg where
  hashKey : String → String → String → Nat
  hashData : List Row → Nat

/-- A `Cache` object: cache key, cached rows, content checksum, expiry
instant, and the (private, readonly) lifetime it was constructed with.
`lifeTime` is the controller's `defaultCacheLifetime`: `some ms` a `TimeSpan`
of `ms` milliseconds, `none` the `null` that disables caching. -/
structure Cache where
  id : Nat
  data : List Row
  checksum : Nat
  validUntil : Int
  lifeTime : Option Nat
deriving DecidableEq, Repr

/-- The `Cache` constructor: `validUntil` is `now + lifeTime` when a lifetime
is given and `now` itself when `lifeTime` is `null` (`this.lifeTime ? ... :
DateTime.now()`); the checksum is `hash(this.data)`. -/
def newCache (cfg : HashCfg) (id : Nat) (data : List Row) (lifeTime : Option Nat)
    (now : Int) : Cache :=
  { id := id, data := data, lifeTime := lifeTime,
    validUntil := match lifeTime with | some ms => now + ms | none => now,
    checksum := cfg.hashData data }

/-- Method `Cache.updateData`: replace the rows, extend the expiry by the stored
lifetime, recompute the checksum.  (`lifeTime.getD 0` stands for JavaScript's
`this.lifeTime.totalMilliseconds`, which is only reached on entries that were
stored, i.e. built with a non-null lifetime.) -/
def Cache.updateData (cfg : HashCfg) (c : Cache) (data : List Row) (now : Int) : Cache :=
  { c with
    data := data,
    validUntil := now + (c.lifeTime.getD 0 : Nat),
    checksum := cfg.hashData data }

/-- Method `cache.getHeader()`: the `X-Cache-Checksum` response header. -/
def Cache.getHeader (c : Cache) : String × Nat :=
  ("X-Cache-Checksum", c.checksum)

/-- The request data `loadDataAndGenerateChecksum` reads: path, route
parameters and body (opaque strings fed to the cache-key hash) plus the
optional `X-Cache-Checksum` request header. -/
structure Req where
  path : String
  params : String
  body : String
  checksumHeader : Option Nat
deriving DecidableEq, Repr

/-- The outcome of `loadDataAndGenerateChecksum`: the controller's `caches`
array after the call, and the returned `{cache, status}` pair (`cache = none`
is the `null` of the not-modified short-circuit; a returned `some` is the
`_.cloneDeep` copy, whose isolation is modelled separately on `Store`). -/
structure LoadResult where
  caches : List Cache
  cache : Option Cache
  status : IStatusCode
deriving DecidableEq, Repr

/-- Method `DataController.loadDataAndGenerateChecksum(request, dataLoader)`,
executed at the logical instant `now` with the loader settling to `loaded`:
sweep expired entries, hash the request into a cache id, reuse / refresh /
build the entry, store it unless caching is disabled, then short-circuit to
`NOT_MODIFIED` when the request's checksum header matches the settled
entry's checksum.  (`this.caches[cacheIndex] = cache` rewrites the slot the
in-place `updateData` already mutated, hence the single `List.set`.) -/
def loadDataAndGenerateChecksum (cfg : HashCfg) (lifeTime : Option Nat)
    (caches : List Cache) (req : Req) (loaded : List Row) (now : Int) : LoadResult :=
  let caches₁ := caches.filter fun x => now < x.validUntil
  let cacheId := cfg.hashKey req.path req.params req.body
  let cacheIndex := caches₁.findIdx fun x => x.id = cacheId
  match caches₁.find? fun x => x.id = cacheId with
  | none =>
    let cache := newCache cfg cacheId loaded lifeTime now
    if lifeTime = none then
      { caches := caches₁, cache := some cache, status := STATUS_CODE.OK }
    else
      let caches₂ := caches₁ ++ [cache]
      if req.checksumHeader = some cache.checksum then
        { caches := caches₂, cache := none, status := STATUS_CODE.NOT_MODIFIED }
      else
        { caches := caches₂, cache := some cache, status := STATUS_CODE.OK }
  | some c₀ =>
    let cache := if c₀.validUntil < now then Cache.updateData cfg c₀ loaded now else c₀
    let caches₂ := caches₁.set cacheIndex cache
    if lifeTime = none then
      { caches := caches₂, cache := some cache, status := STATUS_CODE.OK }
    else
      if req.checksumHeader = some cache.checksum then
        { caches := caches₂, cache := none, status := STATUS_CODE.NOT_MODIFIED }
      else
        { caches := caches₂, cache := some cache, status := STATUS_CODE.OK }

/-- What `DataController.getAll` passes to `Respond`: status, body rows (none
when the `data` argument is omitted), the exception message when the `catch`
path responded instead (`data: exception.message`), and the checksum
header. -/
structure RespOut where
  status : IStatusCode
  body : Option (List Row)
  errorBody : Option String
  header : Option (String × Nat)
deriving DecidableEq, Repr

/-- Method `DataController.getAll` on the success path of the loader: call
`loadDataAndGenerateChecksum`, short-circuit a `NOT_MODIFIED` result with a
body-less response, otherwise sort the returned rows and respond `OK` with
the entry's checksum header.  When the sort throws, `getAll`'s `catch` runs
`Respond({response, status: exception.status, data: exception.message})`;
`SortFn` throws a plain `Error`, whose `status` is `undefined`, so `Respond`
falls back to `STATUS_CODE.OK` and sends the message as the body, with no
checksum header.  (The final arm is the `catch` boundary for the state
`cache = null` without `NOT_MODIFIED`, which `loadData_cache_none_iff` below
proves unreachable.) -/
def getAllHandler (cfg : HashCfg) (lifeTime : Option Nat) (caches : List Cache)
    (req : Req) (loaded : List Row) (now : Int) : List Cache × RespOut :=
  let r := loadDataAndGenerateChecksum cfg lifeTime caches req loaded now
  if r.status = STATUS_CODE.NOT_MODIFIED then
    (r.caches, { status := r.status, body := none, errorBody := none, header := none })
  else
    match r.cache with
    | some c =>
      match getAllBody c.data with
      | .ok rows =>
        (r.caches,
          { status := STATUS_CODE.OK, body := some rows, errorBody := none,
            header := some c.getHeader })
      | .error m =>
        (r.caches,
          { status := STATUS_CODE.OK, body := none, errorBody := some m, header := none })
    | none =>
      (r.caches, { status := STATUS_CODE.OK, body := none, errorBody := none, header := none })

/-- Method `DataController.destroyCaches()`: reset the caches array. -/
def destroyCaches (_caches : List Cache) : List Cache := []

/-- The caches array and responded status after a mutating handler. -/
structure MutationOut where
  caches : List Cache
  status : IStatusCode
deriving DecidableEq, Repr

/-- Method `DataController.create`: on a successful `service.create` the handler
calls `destroyCaches()` and responds; a thrown `ApiException` (modelled as
`.error (status, message)`) is caught and responded without touching the
caches. -/
def createHandler (caches : List Cache)
    (svcResult : Except (IStatusCode × String) Row) : MutationOut :=
  match svcResult with
  | .ok _ => { caches := destroyCaches caches, status := STATUS_CODE.OK }
  | .error e => { caches := caches, status := e.1 }

/-- Method `DataController.update`, same shape as `create`. -/
def updateHandler (caches : List Cache)
    (svcResult : Except (IStatusCode × String) Row) : MutationOut :=
  match svcResult with
  | .ok _ => { caches := destroyCaches caches, status := STATUS_CODE.OK }
  | .error e => { caches := caches, status := e.1 }

/-- Method `DataController.delete`: `destroyCaches()` runs right after the await (so
also on a falsy service result, before the `Unable to delete object` throw is
caught). -/
def deleteHandler (caches : List Cache)
    (svcResult : Except (IStatusCode × String) Bool) : MutationOut :=
  match svcResult with
  | .ok b =>
    if b then { caches := destroyCaches caches, status := STATUS_CODE.OK }
    else { caches := destroyCaches caches, status := STATUS_CODE.INTERNAL }
  | .error e => { caches := caches, status := e.1 }

/-- A concrete hash configuration for witnesses. -/
def demoHashCfg : HashCfg where
  hashKey p q b := p.length + 2 * q.length + 3 * b.length
  hashData rows := rows.length

/-- The entry steps 1–5 of a lookup settle on: the fresh stored entry when the
request's cache id is present after the sweep, a refreshed copy of it when it
had expired, and a newly built entry otherwise.  (A projection of
`loadDataAndGenerateChecksum`, related to it by `loadData_eq_settled`.) -/
def settledCache (cfg : HashCfg) (lifeTime : Option Nat) (caches : List Cache)
    (req : Req) (loaded : List Row) (now : Int) : Cache :=
  let caches₁ := caches.filter fun x => now < x.validUntil
  let cacheId := cfg.hashKey req.path req.params req.body
  match caches₁.find? fun x => x.id = cacheId with
  | none => newCache cfg cacheId loaded lifeTime now
  | some c₀ => if c₀.validUntil < now then Cache.updateData cfg c₀ loaded now else c₀

/-- The caches array a lookup with caching enabled leaves behind: the swept
array with the settled entry written into its slot (or appended when new).
(A projection of `loadDataAndGenerateChecksum`, see `loadData_eq_settled`.) -/
def storedCaches (cfg : HashCfg) (lifeTime : Option Nat) (caches : List Cache)
    (req : Req) (loaded : List Row) (now : Int) : List Cache :=
  let caches₁ := caches.filter fun x => now < x.validUntil
  let cacheId := cfg.hashKey req.path req.params req.body
  let cacheIndex := caches₁.findIdx fun x => x.id = cacheId
  match caches₁.find? fun x => x.id = cacheId with
  | none => caches₁ ++ [settledCache cfg lifeTime caches req loaded now]
  | some _ => caches₁.set cacheIndex (settledCache cfg lifeTime caches req loaded now)

theorem loadData_eq_settled (cfg : HashCfg) (ms : Nat) (caches : List Cache)
    (req : Req) (loaded : List Row) (now : Int) :
    loadDataAndGenerateChecksum cfg (some ms) caches req loaded now =
      if req.checksumHeader = some (settledCache cfg (some ms) caches req loaded now).checksum
      then
        { caches := storedCaches cfg (some ms) caches req loaded now, cache := none,
          status := STATUS_CODE.NOT_MODIFIED }
      else
        { caches := storedCaches cfg (some ms) caches req loaded now,
          cache := some (settledCache cfg (some ms) caches req loaded now),
          status := STATUS_CODE.OK } := by
  simp only [loadDataAndGenerateChecksum, settledCache, storedCaches]
  rcases hf : (caches.filter fun x => now < x.validUntil).find?
      (fun x => x.id = cfg.hashKey req.path req.params req.body) with _ | c₀ <;>
    simp [hf]

theorem settledCache_id (cfg : HashCfg) (lifeTime : Option Nat) (caches : List Cache)
    (req : Req) (loaded : List Row) (now : Int) :
    (settledCache cfg lifeTime caches req loaded now).id =
      cfg.hashKey req.path req.params req.body := by
  simp only [settledCache]
  rcases hf : (caches.filter fun x => now < x.validUntil).find?
      (fun x => x.id = cfg.hashKey req.path req.params req.body) with _ | c₀ <;>
    rw [hf]
  · rfl
  · have hps := List.find?_some hf
    have hid : c₀.id = cfg.hashKey req.path req.params req.body := by
      simpa using hps
    by_cases hexp : c₀.validUntil < now
    · simp only [if_pos hexp, Cache.updateData]
      exact hid
    · simp only [if_neg hexp]
      exact hid

theorem settledCache_mem_stored (cfg : HashCfg) (lifeTime : Option Nat)
    (caches : List Cache) (req : Req) (loaded : List Row) (now : Int) :
    settledCache cfg lifeTime caches req loaded now ∈
      storedCaches cfg lifeTime caches req loaded now := by
  simp only [storedCaches]
  rcases hf : (caches.filter fun x => now < x.validUntil).find?
      (fun x => x.id = cfg.hashKey req.path req.params req.body) with _ | c₀ <;>
    rw [hf]
  · simp
  · have hlt : ((caches.filter fun x => now < x.validUntil).findIdx
        fun x => x.id = cfg.hashKey req.path req.params req.body) <
        (caches.filter fun x => now < x.validUntil).length :=
      List.findIdx_lt_length_of_exists ⟨c₀, List.mem_of_find?_eq_some hf, by
        have hpc := List.find?_some hf
        exact hpc⟩
    rw [List.mem_iff_getElem]
    exact ⟨_, by simpa using hlt, List.getElem_set_self _⟩

theorem settledCache_validUntil (cfg : HashCfg) (lifeTime : Option Nat)
    (caches : List Cache) (req : Req) (loaded : List Row) (now : Int) :
    now ≤ (settledCache cfg lifeTime caches req loaded now).validUntil := by
  simp only [settledCache]
  rcases hf : (caches.filter fun x => now < x.validUntil).find?
      (fun x => x.id = cfg.hashKey req.path req.params req.body) with _ | c₀ <;>
    rw [hf]
  · rcases lifeTime with _ | ms <;> simp [newCache]
  · have hmem := List.mem_of_find?_eq_some hf
    have hc₀ : now < c₀.validUntil := by
      have := (List.mem_filter.1 hmem).2
      simpa using this
    by_cases hexp : c₀.validUntil < now
    · simp [hexp, Cache.updateData]
    · simp [hexp]
      omega

theorem storedCaches_validUntil (cfg : HashCfg) (lifeTime : Option Nat)
    (caches : List Cache) (req : Req) (loaded : List Row) (now : Int) (c : Cache)
    (hc : c ∈ storedCaches cfg lifeTime caches req loaded now) :
    now ≤ c.validUntil := by
  simp only [storedCaches] at hc
  rcases hf : (caches.filter fun x => now < x.validUntil).find?
      (fun x => x.id = cfg.hashKey req.path req.params req.body) with _ | c₀ <;>
      rw [hf] at hc
  · rcases List.mem_append.1 hc with hmem | hmem
    · have := (List.mem_filter.1 hmem).2
      have : now < c.validUntil := by simpa using this
      omega
    · have heq : c = settledCache cfg lifeTime caches req loaded now := by
        simpa using hmem
      rw [heq]
      exact settledCache_validUntil cfg lifeTime caches req loaded now
  · rcases List.mem_or_eq_of_mem_set hc with hmem | heq
    · have := (List.mem_filter.1 hmem).2
      have : now < c.validUntil := by simpa using this
      omega
    · rw [heq]
      exact settledCache_validUntil cfg lifeTime caches req loaded now

theorem loadData_cache_none_iff (cfg : HashCfg) (lifeTime : Option Nat)
    (caches : List Cache) (req : Req) (loaded : List Row) (now : Int)
    (h : (loadDataAndGenerateChecksum cfg lifeTime caches req loaded now).cache = none) :
    (loadDataAndGenerateChecksum cfg lifeTime caches req loaded now).status =
      STATUS_CODE.NOT_MODIFIED := by
  revert h
  simp only [loadDataAndGenerateChecksum]
  rcases hf : (caches.filter fun x => now < x.validUntil).find?
      (fun x => x.id = cfg.hashKey req.path req.params req.body) with _ | c₀ <;>
    simp only [hf] <;> repeat' split
  all_goals simp

theorem loadData_caches_sub (cfg : HashCfg) (lifeTime : Option Nat)
    (caches : List Cache) (req : Req) (loaded : List Row) (now : Int) (c : Cache)
    (hc : c ∈ (loadDataAndGenerateChecksum cfg lifeTime caches req loaded now).caches) :
    c ∈ (caches.filter fun x => now < x.validUntil) ∨
      c ∈ storedCaches cfg lifeTime caches req loaded now := by
  revert hc
  simp only [loadDataAndGenerateChecksum, storedCaches, settledCache]
  rcases hf : (caches.filter fun x => now < x.validUntil).find?
      (fun x => x.id = cfg.hashKey req.path req.params req.body) with _ | c₀ <;>
    simp only [hf] <;> repeat' split
  all_goals intro hc
  all_goals first
    | exact Or.inl hc
    | exact Or.inr hc

/-- Claim C4: after any invocation of `loadDataAndGenerateChecksum`, the
controller's cache list holds no entry whose expiry instant has passed:
every remaining entry satisfies `now ≤ validUntil` (expired entries were
dropped by the sweep, the matched entry was refreshed, new entries expire
`lifeTime` in the future). -/
theorem cache_list_no_expired_after_lookup (cfg : HashCfg) (lifeTime : Option Nat)
    (caches : List Cache) (req : Req) (loaded : List Row) (now : Int) :
    (loadDataAndGenerateChecksum cfg lifeTime caches req loaded now).caches.all
      (fun c => decide (now ≤ c.validUntil)) = true := by
  rw [List.all_eq_true]
  intro c hc
  rw [decide_eq_true_eq]
  rcases loadData_caches_sub cfg lifeTime caches req loaded now c hc with hmem | hmem
  · have hflt := (List.mem_filter.1 hmem).2
    have : now < c.validUntil := by simpa using hflt
    omega
  · exact storedCaches_validUntil cfg lifeTime caches req loaded now c hmem

/-- The entry the C2 counterexample's lookup settles: the loader returns a
first row with an `id` and a second row without one. -/
def demoMixedCache : Cache where
  id := 2
  data := [⟨some "b", ""⟩, ⟨none, "x"⟩]
  checksum := 2
  validUntil := 60000
  lifeTime := some 60000

/-- Claim C2, counterexample: the claim says the non-matching cacheable
response is the entry's payload with status `OK` plus the checksum header.
With caching enabled, no checksum header on the request, and a freshly
settled entry whose rows are `[{id: "b", ...}, {no id}]` (more than one row,
the first with an `id`, a later one without), `SortFn`'s `typeof` default
throws inside `getAll`'s `try`, and the response carries the exception
message with no rows and no checksum header — not the entry's payload. -/
theorem conditional_checksum_sort_throw_counterexample :
    (loadDataAndGenerateChecksum demoHashCfg (some 60000) []
        ⟨"/a", "", "", none⟩ [⟨some "b", ""⟩, ⟨none, "x"⟩] 0).cache =
      some demoMixedCache ∧
    (loadDataAndGenerateChecksum demoHashCfg (some 60000) []
        ⟨"/a", "", "", none⟩ [⟨some "b", ""⟩, ⟨none, "x"⟩] 0).status =
      STATUS_CODE.OK ∧
    (getAllHandler demoHashCfg (some 60000) []
        ⟨"/a", "", "", none⟩ [⟨some "b", ""⟩, ⟨none, "x"⟩] 0).2 =
      { status := STATUS_CODE.OK, body := none, errorBody := some sortFnThrowMsg,
        header := none } := by
  refine ⟨rfl, rfl, rfl⟩

/-- Claim C2, amended: for a listing request with caching enabled, steps 1–5
settle an entry for the request's cache id in the stored list; if the
request's `X-Cache-Checksum` header equals that entry's checksum, the lookup
returns `{cache: null, status: NOT_MODIFIED}` and `getAll` responds
`NOT_MODIFIED` with no body and no header.  Otherwise the lookup returns the
entry with `OK`, and `getAll` responds `OK` with the entry's rows (sorted)
plus the entry's checksum header exactly when the rows sort without error;
when the sort throws (more than one row, the first with an `id`, another
without one), the catch responds with the exception message, no rows and no
checksum header. -/
theorem conditional_checksum_response (cfg : HashCfg) (ms : Nat) (caches : List Cache)
    (req : Req) (loaded : List Row) (now : Int) :
    ∃ c,
      c ∈ (loadDataAndGenerateChecksum cfg (some ms) caches req loaded now).caches ∧
      c.id = cfg.hashKey req.path req.params req.body ∧
      (req.checksumHeader = some c.checksum →
        (loadDataAndGenerateChecksum cfg (some ms) caches req loaded now).cache = none ∧
        (loadDataAndGenerateChecksum cfg (some ms) caches req loaded now).status =
          STATUS_CODE.NOT_MODIFIED ∧
        (getAllHandler cfg (some ms) caches req loaded now).2 =
          { status := STATUS_CODE.NOT_MODIFIED, body := none, errorBody := none,
            header := none }) ∧
      (req.checksumHeader ≠ some c.checksum →
        (loadDataAndGenerateChecksum cfg (some ms) caches req loaded now).cache = some c ∧
        (loadDataAndGenerateChecksum cfg (some ms) caches req loaded now).status =
          STATUS_CODE.OK ∧
        (∀ rows, getAllBody c.data = .ok rows →
          (getAllHandler cfg (some ms) caches req loaded now).2 =
            { status := STATUS_CODE.OK, body := some rows, errorBody := none,
              header := some ("X-Cache-Checksum", c.checksum) }) ∧
        (∀ m, getAllBody c.data = .error m →
          (getAllHandler cfg (some ms) caches req loaded now).2 =
            { status := STATUS_CODE.OK, body := none, errorBody := some m,
              header := none })) := by
  refine ⟨settledCache cfg (some ms) caches req loaded now, ?_,
    settledCache_id cfg (some ms) caches req loaded now, ?_, ?_⟩
  · rw [loadData_eq_settled]
    by_cases hck : req.checksumHeader =
        some (settledCache cfg (some ms) caches req loaded now).checksum
    · rw [if_pos hck]
      exact settledCache_mem_stored cfg (some ms) caches req loaded now
    · rw [if_neg hck]
      exact settledCache_mem_stored cfg (some ms) caches req loaded now
  · intro hck
    have hl := loadData_eq_settled cfg ms caches req loaded now
    rw [if_pos hck] at hl
    refine ⟨by rw [hl], by rw [hl], ?_⟩
    simp only [getAllHandler]
    rw [hl]
    simp
  · intro hck
    have hl := loadData_eq_settled cfg ms caches req loaded now
    rw [if_neg hck] at hl
    have hne : STATUS_CODE.OK ≠ STATUS_CODE.NOT_MODIFIED := by decide
    refine ⟨by rw [hl], by rw [hl], ?_, ?_⟩
    · intro rows hrows
      simp only [getAllHandler]
      rw [hl]
      simp [hne, Cache.getHeader, hrows]
    · intro m hm₂
      simp only [getAllHandler]
      rw [hl]
      simp [hne, hm₂]

/-- The entry the C2 witness's lookup settles: id
`demoHashCfg.hashKey "/a" "" "" = 2`, checksum `2` (two rows), expiry one
minute after `now = 0`. -/
def demoSettledCache : Cache where
  id := 2
  data := [⟨some "b", ""⟩, ⟨some "a", ""⟩]
  checksum := 2
  validUntil := 60000
  lifeTime := some 60000

/-- Witness for the amended C2 on `demoHashCfg` from an empty cache list: a
request whose checksum header matches the freshly built entry's checksum
gets `NOT_MODIFIED` with no body; a request with no checksum header gets the
sorted payload with the checksum header (both its rows carry ids, so the
sort succeeds). -/
theorem conditional_checksum_response_witness :
    (loadDataAndGenerateChecksum demoHashCfg (some 60000) []
        ⟨"/a", "", "", some 2⟩ [⟨some "b", ""⟩, ⟨some "a", ""⟩] 0).cache = none ∧
    (loadDataAndGenerateChecksum demoHashCfg (some 60000) []
        ⟨"/a", "", "", some 2⟩ [⟨some "b", ""⟩, ⟨some "a", ""⟩] 0).status =
      STATUS_CODE.NOT_MODIFIED ∧
    (getAllHandler demoHashCfg (some 60000) []
        ⟨"/a", "", "", some 2⟩ [⟨some "b", ""⟩, ⟨some "a", ""⟩] 0).2 =
      { status := STATUS_CODE.NOT_MODIFIED, body := none, errorBody := none,
        header := none } ∧
    (getAllHandler demoHashCfg (some 60000) []
        ⟨"/a", "", "", none⟩ [⟨some "b", ""⟩, ⟨some "a", ""⟩] 0).2 =
      { status := STATUS_CODE.OK,
        body := some [⟨some "a", ""⟩, ⟨some "b", ""⟩], errorBody := none,
        header := some ("X-Cache-Checksum", 2) } := by
  obtain ⟨c, hmem, hid, hm, hnm⟩ := conditional_checksum_response demoHashCfg 60000 []
    ⟨"/a", "", "", some 2⟩ [⟨some "b", ""⟩, ⟨some "a", ""⟩] 0
  have hc : c = demoSettledCache := by
    have hcs : (loadDataAndGenerateChecksum demoHashCfg (some 60000) []
        ⟨"/a", "", "", some 2⟩ [⟨some "b", ""⟩, ⟨some "a", ""⟩] 0).caches =
        [demoSettledCache] := by rfl
    rw [hcs] at hmem
    simpa using hmem
  subst hc
  obtain ⟨h₁, h₂, h₃⟩ := hm rfl
  obtain ⟨c', hmem', hid', hm', hnm'⟩ := conditional_checksum_response demoHashCfg 60000 []
    ⟨"/a", "", "", none⟩ [⟨some "b", ""⟩, ⟨some "a", ""⟩] 0
  have hc' : c' = demoSettledCache := by
    have hcs' : (loadDataAndGenerateChecksum demoHashCfg (some 60000) []
        ⟨"/a", "", "", none⟩ [⟨some "b", ""⟩, ⟨some "a", ""⟩] 0).caches =
        [demoSettledCache] := by rfl
    rw [hcs'] at hmem'
    simpa using hmem'
  subst hc'
  obtain ⟨h₄, h₅, hok, herr⟩ := hnm' (by simp)
  have hba : ¬ (("b" : String) ≤ "a") := by
    rw [String.le_iff_toList_le]
    decide
  have hbody : getAllBody demoSettledCache.data =
      .ok [⟨some "a", ""⟩, ⟨some "b", ""⟩] := by
    simp [getAllBody, demoSettledCache, sortRowsWithSortFn, List.insertionSort,
      List.orderedInsert, rowIdKey, hba]
  exact ⟨h₁, h₂, h₃, hok [⟨some "a", ""⟩, ⟨some "b", ""⟩] hbody⟩

/-- Claim C3: successful `create`, `update` and `delete` handler runs leave the
controller's cache list empty (`destroyCaches()`), and the next listing
lookup, starting from an empty cache list, settles an entry whose rows are
exactly what the data loader produced — both the stored entry and the
returned one. -/
theorem mutation_clears_caches (caches : List Cache) (r : Row) (b : Bool)
    (cfg : HashCfg) (lifeTime : Option Nat) (req : Req) (loaded : List Row) (now : Int) :
    (createHandler caches (.ok r)).caches = [] ∧
    (updateHandler caches (.ok r)).caches = [] ∧
    (deleteHandler caches (.ok b)).caches = [] ∧
    (loadDataAndGenerateChecksum cfg lifeTime [] req loaded now).caches.all
      (fun c => c.data == loaded) = true ∧
    (loadDataAndGenerateChecksum cfg lifeTime [] req loaded now).cache.all
      (fun c => c.data == loaded) = true := by
  refine ⟨rfl, rfl, ?_, ?_, ?_⟩
  · cases b <;> rfl
  · simp only [loadDataAndGenerateChecksum, List.filter_nil, List.find?_nil]
    repeat' split
    all_goals simp [newCache]
  · simp only [loadDataAndGenerateChecksum, List.filter_nil, List.find?_nil]
    repeat' split
    all_goals simp [newCache]

/-! Section: Clone isolation of the lookup's return value (`_.cloneDeep`) -/

/-- A heap of payload arrays, making the aliasing between the stored cache
entry and the value `loadDataAndGenerateChecksum` returns explicit: a cache
entry refers to its `data` array through `dataRef`. -/
structure Store where
  cells : List (List Row)
deriving DecidableEq, Repr

/-- A `Cache` object under the heap model: same fields, with the rows held by
reference. -/
structure CacheRef where
  id : Nat
  dataRef : Nat
  checksum : Nat
  validUntil : Int
deriving DecidableEq, Repr

/-- Dereference an entry's rows. -/
def readData (h : Store) (e : CacheRef) : List Row :=
  h.cells.getD e.dataRef []

/-- Models `_.cloneDeep(cache)` on the return path of `loadDataAndGenerateChecksum`:
allocate a fresh array with a copy of the entry's rows and return an entry
pointing at the copy, leaving the stored entry pointing at the original. -/
def cloneDeepEntry (h : Store) (e : CacheRef) : Store × CacheRef :=
  (⟨h.cells ++ [readData h e]⟩, { e with dataRef := h.cells.length })

/-- Models `data.sort(SortFn("id"))` in `getAll`: JavaScript's in-place `Array.sort`
overwrites the array held by the given reference with its sorted rows. -/
def sortDataInPlace (h : Store) (r : Nat) : Store :=
  ⟨h.cells.set r (sortedBody (h.cells.getD r []))⟩

/-- Claim C10: the lookup returns a deep clone of the settled entry: the
returned entry points at a fresh cell, so `getAll`'s in-place sort of the
returned rows leaves the stored entry's rows (and its checksum field)
unchanged, while the returned reference reads back the sorted rows. -/
theorem loadData_returns_deep_clone (h : Store) (e : CacheRef)
    (hr : e.dataRef < h.cells.length) :
    (cloneDeepEntry h e).2.dataRef ≠ e.dataRef ∧
    (cloneDeepEntry h e).2.checksum = e.checksum ∧
    readData (sortDataInPlace (cloneDeepEntry h e).1 (cloneDeepEntry h e).2.dataRef) e =
      readData h e ∧
    readData (sortDataInPlace (cloneDeepEntry h e).1 (cloneDeepEntry h e).2.dataRef)
        (cloneDeepEntry h e).2 =
      sortedBody (readData h e) := by
  refine ⟨by simp [cloneDeepEntry]; omega, rfl, ?_, ?_⟩
  · simp only [readData, cloneDeepEntry, sortDataInPlace]
    rw [List.getD_eq_getElem?_getD,
      List.getElem?_set_ne (by omega : h.cells.length ≠ e.dataRef)]
    simp [List.getElem?_append, hr, List.getD_eq_getElem?_getD]
  · simp only [readData, cloneDeepEntry, sortDataInPlace]
    rw [List.getD_eq_getElem?_getD,
      List.getElem?_set_self (by simp)]
    simp [List.getElem?_append, List.getD_eq_getElem?_getD, readData]

/-- Witness for C10 on a one-cell heap holding two unsorted rows. -/
theorem loadData_returns_deep_clone_witness :
    (⟨1, 0, 7, 99⟩ : CacheRef).dataRef <
      (Store.mk [[⟨some "b", ""⟩, ⟨some "a", ""⟩]]).cells.length ∧
    ((cloneDeepEntry ⟨[[⟨some "b", ""⟩, ⟨some "a", ""⟩]]⟩ ⟨1, 0, 7, 99⟩).2.dataRef ≠
        (⟨1, 0, 7, 99⟩ : CacheRef).dataRef ∧
      (cloneDeepEntry ⟨[[⟨some "b", ""⟩, ⟨some "a", ""⟩]]⟩ ⟨1, 0, 7, 99⟩).2.checksum =
        (⟨1, 0, 7, 99⟩ : CacheRef).checksum ∧
      readData (sortDataInPlace
          (cloneDeepEntry ⟨[[⟨some "b", ""⟩, ⟨some "a", ""⟩]]⟩ ⟨1, 0, 7, 99⟩).1
          (cloneDeepEntry ⟨[[⟨some "b", ""⟩, ⟨some "a", ""⟩]]⟩ ⟨1, 0, 7, 99⟩).2.dataRef)
        ⟨1, 0, 7, 99⟩ = readData ⟨[[⟨some "b", ""⟩, ⟨some "a", ""⟩]]⟩ ⟨1, 0, 7, 99⟩ ∧
      readData (sortDataInPlace
          (cloneDeepEntry ⟨[[⟨some "b", ""⟩, ⟨some "a", ""⟩]]⟩ ⟨1, 0, 7, 99⟩).1
          (cloneDeepEntry ⟨[[⟨some "b", ""⟩, ⟨some "a", ""⟩]]⟩ ⟨1, 0, 7, 99⟩).2.dataRef)
        (cloneDeepEntry ⟨[[⟨some "b", ""⟩, ⟨some "a", ""⟩]]⟩ ⟨1, 0, 7, 99⟩).2 =
        sortedBody (readData ⟨[[⟨some "b", ""⟩, ⟨some "a", ""⟩]]⟩ ⟨1, 0, 7, 99⟩)) :=
  ⟨by decide, loadData_returns_deep_clone ⟨[[⟨some "b", ""⟩, ⟨some "a", ""⟩]]⟩
    ⟨1, 0, 7, 99⟩ (by decide)⟩

end Preppr
